import Mathlib

/-!
Shallow embedding of the selection-and-search core of
`common/lib/xmodule/xmodule/assets/library_source_block/LibrarySourcedBlockPicker.jsx`
(the React component `LibrarySourcedBlockPicker` and the companion
`LibrarySourceBlockAuthorView` save handler).

The JS `Set` of selected block ids is modelled as an insertion-ordered
duplicate-free `List String`; `Set.add` appends when absent, `Set.delete`
filters.  The component instance, its two memoized underscore-debounce
closures, the monotone event-loop clock, outgoing catalog requests and
save dispatches are modelled explicitly; network responses are separate
events so that completion order can differ from issuance order.
-/

namespace LibraryPicker

/-- A library entry as returned by the catalog: `id` and `title`. -/
structure Library where
  id : String
  title : String
deriving DecidableEq, Repr

/-- A block entry as returned by the catalog: `id` and `display_name`. -/
structure Block where
  id : String
  display_name : String
deriving DecidableEq, Repr

/-- JS `Set.prototype.add` on an insertion-ordered duplicate-free list:
appends the element when absent, no-op when present. -/
def setAdd (s : List String) (x : String) : List String :=
  if x ∈ s then s else s ++ [x]

/-- JS `Set.prototype.delete`: removes the element, keeping order. -/
def setDelete (s : List String) (x : String) : List String :=
  s.filter (fun y => y ≠ x)

/-- JS `new Set(arr)`: deduplicates, keeping the first occurrence of each id.
Used by the constructor on `this.props.selectedXblocks` and implicitly by
the copy in `onXblockSelected` / `onDeleteClick`. -/
def jsSetOfList (l : List String) : List String :=
  l.foldl setAdd []

/-- The two user events that mutate the selection set:
`onXblockSelected` (checkbox toggle, line 97) and `onDeleteClick`
(remove from the selected-blocks list, line 118). -/
inductive SelEv where
  | toggle (checked : Bool) (id : String)
  | del (id : String)
deriving DecidableEq, Repr

/-- Effect of one selection event on the selection set:
`onXblockSelected` adds when the checkbox is checked and deletes
otherwise; `onDeleteClick` deletes unconditionally. -/
def applySelEv (s : List String) : SelEv → List String
  | .toggle true v => setAdd s v
  | .toggle false v => setDelete s v
  | .del v => setDelete s v

/-- Folding a whole sequence of selection events over an initial set. -/
def applySelEvs (s : List String) (evs : List SelEv) : List String :=
  evs.foldl applySelEv s

/-- Does the event concern the given id? -/
def concernsId (x : String) : SelEv → Bool
  | .toggle _ v => v = x
  | .del v => v = x

/-- Is the event an add of the given id? -/
def isAddOf (x : String) : SelEv → Bool
  | .toggle c v => v = x && c
  | .del _ => false

/-- Does the event remove the given id? -/
def removesId (x : String) : SelEv → Bool
  | .toggle c v => v = x && !c
  | .del v => v = x

/-- The last event of a sequence that concerns the given id, if any. -/
def lastConcerning (x : String) (evs : List SelEv) : Option SelEv :=
  (evs.filter (concernsId x)).getLast?

theorem mem_setAdd (s : List String) (x y : String) :
    y ∈ setAdd s x ↔ y ∈ s ∨ y = x := by
  unfold setAdd
  split
  · constructor
    · exact Or.inl
    · rintro (h | rfl) <;> assumption
  · simp

theorem mem_setDelete (s : List String) (x y : String) :
    y ∈ setDelete s x ↔ y ∈ s ∧ y ≠ x := by
  unfold setDelete
  simp

theorem nodup_setAdd (s : List String) (x : String) (h : s.Nodup) :
    (setAdd s x).Nodup := by
  unfold setAdd
  split
  · exact h
  · simpa [List.nodup_append] using ⟨h, by assumption⟩

theorem nodup_setDelete (s : List String) (x : String) (h : s.Nodup) :
    (setDelete s x).Nodup :=
  h.filter _

theorem nodup_applySelEv (s : List String) (e : SelEv) (h : s.Nodup) :
    (applySelEv s e).Nodup := by
  cases e with
  | toggle c v => cases c <;> [exact nodup_setDelete s v h; exact nodup_setAdd s v h]
  | del v => exact nodup_setDelete s v h

theorem nodup_applySelEvs (s : List String) (evs : List SelEv) (h : s.Nodup) :
    (applySelEvs s evs).Nodup := by
  induction evs generalizing s with
  | nil => exact h
  | cons e rest ih => exact ih (applySelEv s e) (nodup_applySelEv s e h)

theorem nodup_jsSetOfList (l : List String) : (jsSetOfList l).Nodup := by
  unfold jsSetOfList
  have : ∀ acc : List String, acc.Nodup → (l.foldl setAdd acc).Nodup := by
    induction l with
    | nil => intro acc h; exact h
    | cons a rest ih =>
        intro acc h
        exact ih (setAdd acc a) (nodup_setAdd acc a h)
  exact this [] List.nodup_nil

theorem mem_jsSetOfList (l : List String) (x : String) :
    x ∈ jsSetOfList l ↔ x ∈ l := by
  unfold jsSetOfList
  have : ∀ acc : List String, x ∈ l.foldl setAdd acc ↔ x ∈ acc ∨ x ∈ l := by
    induction l with
    | nil => intro acc; simp
    | cons a rest ih =>
        intro acc
        rw [List.foldl_cons, ih (setAdd acc a), mem_setAdd]
        simp [or_assoc]
  rw [this []]
  simp

theorem applySelEvs_concat (s : List String) (evs : List SelEv) (e : SelEv) :
    applySelEvs s (evs ++ [e]) = applySelEv (applySelEvs s evs) e := by
  unfold applySelEvs
  rw [List.foldl_append]
  rfl

theorem lastConcerning_concat (x : String) (evs : List SelEv) (e : SelEv) :
    lastConcerning x (evs ++ [e]) =
      if concernsId x e then some e else lastConcerning x evs := by
  unfold lastConcerning
  rw [List.filter_append]
  split
  · rename_i h
    simp [List.filter, h]
  · rename_i h
    simp [List.filter, h]

theorem removed_not_mem_rhs (s : List String) (rest : List SelEv) (e : SelEv) (x : String)
    (ha : isAddOf x e = false) (hr : removesId x e = true) :
    ¬ ((∃ e2, some e = some e2 ∧ isAddOf x e2 = true) ∨
        (x ∈ s ∧ ∀ e2 ∈ rest ++ [e], removesId x e2 = false)) := by
  rintro (⟨e2, he2, ha2⟩ | ⟨_, hall⟩)
  · cases Option.some.inj he2
    rw [ha] at ha2
    exact absurd ha2 (by simp)
  · have h3 := hall e (List.mem_append.mpr (Or.inr (List.mem_singleton.mpr rfl)))
    rw [hr] at h3
    exact absurd h3 (by simp)

theorem mem_applySelEvs_iff (s : List String) (evs : List SelEv) (x : String) :
    x ∈ applySelEvs s evs ↔
      (∃ e, lastConcerning x evs = some e ∧ isAddOf x e = true) ∨
        (x ∈ s ∧ ∀ e ∈ evs, removesId x e = false) := by
  induction evs using List.reverseRecOn with
  | nil => simp [applySelEvs, lastConcerning]
  | append_singleton rest e ih =>
      rw [applySelEvs_concat, lastConcerning_concat]
      by_cases hc : concernsId x e = true
      · rw [if_pos hc]
        cases e with
        | toggle c v =>
            have hv : v = x := by simpa [concernsId] using hc
            subst hv
            cases c with
            | true =>
                rw [show applySelEv (applySelEvs s rest) (SelEv.toggle true v)
                      = setAdd (applySelEvs s rest) v from rfl, mem_setAdd]
                constructor
                · intro _
                  exact Or.inl ⟨SelEv.toggle true v, rfl, by simp [isAddOf]⟩
                · intro _
                  exact Or.inr rfl
            | false =>
                rw [show applySelEv (applySelEvs s rest) (SelEv.toggle false v)
                      = setDelete (applySelEvs s rest) v from rfl, mem_setDelete]
                constructor
                · rintro ⟨_, hne⟩
                  exact absurd rfl hne
                · intro h
                  exact absurd h (removed_not_mem_rhs s rest (SelEv.toggle false v) v
                    (by simp [isAddOf]) (by simp [removesId]))
        | del v =>
            have hv : v = x := by simpa [concernsId] using hc
            subst hv
            rw [show applySelEv (applySelEvs s rest) (SelEv.del v)
                  = setDelete (applySelEvs s rest) v from rfl, mem_setDelete]
            constructor
            · rintro ⟨_, hne⟩
              exact absurd rfl hne
            · intro h
              exact absurd h (removed_not_mem_rhs s rest (SelEv.del v) v
                (by simp [isAddOf]) (by simp [removesId]))
      · rw [if_neg hc]
        have hvx : ∀ v c, e = SelEv.toggle c v → ¬ v = x := by
          intro v c hev hv
          subst hev
          exact hc (by simpa [concernsId] using hv)
        have hvx2 : ∀ v, e = SelEv.del v → ¬ v = x := by
          intro v hev hv
          subst hev
          exact hc (by simpa [concernsId] using hv)
        have hrem : removesId x e = false := by
          cases e with
          | toggle c v =>
              have hv := hvx v c rfl
              simp [removesId, hv]
          | del v =>
              have hv := hvx2 v rfl
              simp [removesId, hv]
        have hmem : x ∈ applySelEv (applySelEvs s rest) e ↔ x ∈ applySelEvs s rest := by
          cases e with
          | toggle c v =>
              have hv : ¬ v = x := hvx v c rfl
              cases c with
              | true =>
                  rw [show applySelEv (applySelEvs s rest) (SelEv.toggle true v)
                        = setAdd (applySelEvs s rest) v from rfl, mem_setAdd]
                  constructor
                  · rintro (h | h)
                    · exact h
                    · exact absurd h.symm hv
                  · exact Or.inl
              | false =>
                  rw [show applySelEv (applySelEvs s rest) (SelEv.toggle false v)
                        = setDelete (applySelEvs s rest) v from rfl, mem_setDelete]
                  constructor
                  · exact fun h => h.1
                  · intro h
                    exact ⟨h, fun hx => hv hx.symm⟩
          | del v =>
              have hv : ¬ v = x := hvx2 v rfl
              rw [show applySelEv (applySelEvs s rest) (SelEv.del v)
                    = setDelete (applySelEvs s rest) v from rfl, mem_setDelete]
              constructor
              · exact fun h => h.1
              · intro h
                exact ⟨h, fun hx => hv hx.symm⟩
        rw [hmem, ih]
        constructor
        · rintro (h | ⟨h1, h2⟩)
          · exact Or.inl h
          · refine Or.inr ⟨h1, ?_⟩
            intro e2 he2
            rcases List.mem_append.mp he2 with h3 | h3
            · exact h2 e2 h3
            · rcases List.mem_singleton.mp h3 with rfl
              exact hrem
        · rintro (h | ⟨h1, h2⟩)
          · exact Or.inl h
          · exact Or.inr ⟨h1, fun e2 he2 => h2 e2 (List.mem_append.mpr (Or.inl he2))⟩

/-- C1: starting from the deduplicated initial membership, after any
sequence of checkbox-toggle and delete events the selection set contains
an id iff the last event concerning that id was an add, or the id was
initially present and never removed; and the set never contains
duplicate identifiers. -/
theorem C1_selection_set_correct (init : List String) (evs : List SelEv) (x : String) :
    (x ∈ applySelEvs (jsSetOfList init) evs ↔
      (∃ e, lastConcerning x evs = some e ∧ isAddOf x e = true) ∨
        (x ∈ jsSetOfList init ∧ ∀ e ∈ evs, removesId x e = false)) ∧
    (applySelEvs (jsSetOfList init) evs).Nodup :=
  ⟨mem_applySelEvs_iff (jsSetOfList init) evs x,
   nodup_applySelEvs (jsSetOfList init) evs (nodup_jsSetOfList init)⟩

/-- The component state object initialized in the constructor
(`this.state`, lines 11 to 18). `selectedLibrary` is `undefined` until the
first selection, modelled as `none`; the selected-blocks JS `Set` is the
insertion-ordered duplicate-free list. -/
structure PickerState where
  libraries : List Library
  xblocks : List Block
  searchedLibrary : String
  searchedXblock : String
  selectedLibrary : Option String
  selectedXblocks : List String
deriving DecidableEq, Repr

/-- One memoized `_.debounce` closure (`this.debouncedFetchLibraries` or
`this.debouncedFetchXblocks`): its only state is the pending
trailing-edge fire time, if any. The closure captures the first event
object, but `event.persist()` merely opts it out of React's pool —
`event.target` stays a live reference to the input DOM node — so every
datum the closure body uses (`event.target.value`, `this.state`) is
read at fire time, not frozen at creation. -/
structure Debounced where
  timer : Option Nat
deriving DecidableEq, Repr

/-- An outgoing catalog request: `fetchLibraries` issues
`GET /api/libraries/v2?text_search=...` and `fetchXblocks` issues
`GET /api/libraries/v2/<library>/blocks?text_search=...`. The library is
an `Option` because `fetchXblocks` can be reached with
`this.state.selectedLibrary` still `undefined`. -/
inductive Request where
  | listLibraries (textSearch : String)
  | listBlocks (library : Option String) (textSearch : String)
deriving DecidableEq, Repr

/-- A parsed response body for one of the two request kinds. -/
inductive Payload where
  | libs (l : List Library)
  | blocks (b : List Block)
deriving DecidableEq, Repr

/-- A component instance: its React state plus the two memoized
instance-level debounce closures. -/
structure Component where
  state : PickerState
  debouncedFetchLibraries : Option Debounced
  debouncedFetchXblocks : Option Debounced
deriving DecidableEq, Repr

/-- The world around one component instance: the event-loop clock, whether
the component is still mounted, the log of issued catalog requests in
issuance order (the index is the request id), and the save dispatches
handed to the host (destination URL and snapshot ids). -/
structure World where
  comp : Component
  now : Nat
  mounted : Bool
  requests : List Request
  saves : List (String × List String)
  saveUrl : String
deriving DecidableEq, Repr

/-- The `_.debounce` window used by both handlers (300 ms). -/
def debounceWait : Nat := 300

/-- State `this.state` as set by the constructor. -/
def initialState (selectedXblocksProp : List String) : PickerState :=
  { libraries := [], xblocks := [], searchedLibrary := "", searchedXblock := "",
    selectedLibrary := none,
    selectedXblocks := jsSetOfList selectedXblocksProp }

/-- The world right after the constructor ran: the constructor calls
`this.fetchLibraries()` synchronously, so exactly one unfiltered
libraries request is already issued. -/
def initWorld (selectedXblocksProp : List String) (saveUrl : String) : World :=
  { comp := { state := initialState selectedXblocksProp,
              debouncedFetchLibraries := none,
              debouncedFetchXblocks := none },
    now := 0, mounted := true,
    requests := [Request.listLibraries ""],
    saves := [], saveUrl := saveUrl }

/-- Append a freshly issued catalog request to the log. -/
def issue (w : World) (r : Request) : World :=
  { w with requests := w.requests ++ [r] }

/-- Handler `onLibraryInputChange`: store the new text in
`searchedLibrary` (the library input is a controlled input bound to
this field, so the DOM value always equals it) and (re)start the
memoized debounce closure's 300-unit trailing timer. The closure is
created on first use and reused afterwards; since its body reads
`event.target.value` and `this.state` live at fire time, creation and
reuse both amount to restarting the timer. -/
def onLibraryInputChange (w : World) (text : String) : World :=
  let st := { w.comp.state with searchedLibrary := text }
  let deb : Debounced := { timer := some (w.now + debounceWait) }
  { w with comp := { w.comp with state := st, debouncedFetchLibraries := some deb } }

/-- Handler `onXBlockInputChange`: store the new text in `searchedXblock`
(the block input is uncontrolled, but this handler records every
keystroke, so the DOM value always equals `searchedXblock`) and
(re)start the memoized debounce closure's 300-unit trailing timer.
Creation and reuse of the closure coincide, as in
`onLibraryInputChange`. -/
def onXBlockInputChange (w : World) (text : String) : World :=
  let st := { w.comp.state with searchedXblock := text }
  let deb : Debounced := { timer := some (w.now + debounceWait) }
  { w with comp := { w.comp with state := st, debouncedFetchXblocks := some deb } }

/-- Handler `onLibrarySelected`: set `selectedLibrary` and synchronously call
`fetchXblocks(event.target.value)` — the `text_search` parameter defaults
to the empty string. Nothing else in the state is touched. -/
def onLibrarySelected (w : World) (libId : String) : World :=
  let st := { w.comp.state with selectedLibrary := some libId }
  issue { w with comp := { w.comp with state := st } }
    (Request.listBlocks (some libId) "")

/-- Handler `onXblockSelected`: copy the selection set and add or delete the
checkbox value according to its new checked state. -/
def onXblockSelected (w : World) (checked : Bool) (id : String) : World :=
  let sel :=
    if checked then setAdd w.comp.state.selectedXblocks id
    else setDelete w.comp.state.selectedXblocks id
  { w with comp := { w.comp with state :=
      { w.comp.state with selectedXblocks := sel } } }

/-- Handler `onDeleteClick`: copy the selection set and delete the row's id. -/
def onDeleteClick (w : World) (id : String) : World :=
  { w with comp := { w.comp with state :=
      { w.comp.state with
          selectedXblocks := (setDelete w.comp.state.selectedXblocks id) } } }

/-- Handler `onSaveClick`: trigger the `save` event with
`save_url = this.props.saveUrl` and
`source_block_ids = Array.from(this.state.selectedXblocks)`. -/
def onSaveClick (w : World) : World :=
  { w with saves := w.saves ++ [(w.saveUrl, w.comp.state.selectedXblocks)] }

/-- Trailing edge of `this.debouncedFetchLibraries`: when the timer is
due it is consumed and the closure body runs, calling
`this.fetchLibraries(event.target.value)`. `event.target` is a live
reference to the library input DOM node, and that input is controlled
by `searchedLibrary`, so the dispatched text is the field's current —
last-typed — value at fire time. -/
def fireLibraryDebounce (w : World) : World :=
  match w.comp.debouncedFetchLibraries with
  | some d =>
    match d.timer with
    | some t =>
      if t ≤ w.now then
        issue
          { w with comp := { w.comp with
              debouncedFetchLibraries := some { timer := none } } }
          (Request.listLibraries w.comp.state.searchedLibrary)
      else w
    | none => w
  | none => w

/-- Trailing edge of `this.debouncedFetchXblocks`: when the timer is due
it is consumed and the closure body runs, calling
`this.fetchXblocks(this.state.selectedLibrary, event.target.value)`.
Both arguments are live reads at fire time: the state's current
`selectedLibrary`, and the block input's current DOM value, which
equals `searchedXblock` since the handler records every keystroke. -/
def fireXblockDebounce (w : World) : World :=
  match w.comp.debouncedFetchXblocks with
  | some d =>
    match d.timer with
    | some t =>
      if t ≤ w.now then
        issue
          { w with comp := { w.comp with
              debouncedFetchXblocks := some { timer := none } } }
          (Request.listBlocks w.comp.state.selectedLibrary
            w.comp.state.searchedXblock)
      else w
    | none => w
  | none => w

/-- Delivery of the response to request number `i`: the `.then`
continuations of `fetchLibraries` / `fetchXblocks` unconditionally
overwrite `libraries` / `xblocks` with the parsed body, whenever the
response arrives. -/
def applyResponse (w : World) (i : Nat) (p : Payload) : World :=
  match w.requests[i]?, p with
  | some (Request.listLibraries _), Payload.libs l =>
    { w with comp := { w.comp with state :=
        { w.comp.state with libraries := l } } }
  | some (Request.listBlocks _ _), Payload.blocks b =>
    { w with comp := { w.comp with state :=
        { w.comp.state with xblocks := b } } }
  | _, _ => w

/-- All events that can act on the world: the six component handlers, the
two debounce trailing edges, response delivery, clock advance and
unmount. The component defines no `componentWillUnmount`, so unmounting
only flips the flag and cancels nothing. -/
inductive Ev where
  | libraryInput (text : String)
  | xblockInput (text : String)
  | librarySelect (libId : String)
  | xblockToggle (checked : Bool) (id : String)
  | deleteClick (id : String)
  | saveClick
  | fireLibTimer
  | fireXblockTimer
  | respond (i : Nat) (p : Payload)
  | advanceTo (t : Nat)
  | unmount
deriving DecidableEq, Repr

/-- Small-step semantics of the component against its environment. -/
def step (w : World) : Ev → World
  | .libraryInput text => onLibraryInputChange w text
  | .xblockInput text => onXBlockInputChange w text
  | .librarySelect libId => onLibrarySelected w libId
  | .xblockToggle c id => onXblockSelected w c id
  | .deleteClick id => onDeleteClick w id
  | .saveClick => onSaveClick w
  | .fireLibTimer => fireLibraryDebounce w
  | .fireXblockTimer => fireXblockDebounce w
  | .respond i p => applyResponse w i p
  | .advanceTo t => if w.now ≤ t then { w with now := t } else w
  | .unmount => { w with mounted := false }

/-- Run a whole event sequence. -/
def run (w : World) (evs : List Ev) : World := evs.foldl step w

/-- Is the event a library selection? -/
def isLibrarySelect : Ev → Bool
  | .librarySelect _ => true
  | _ => false

/-- A request that was issued without any library having been selected:
either a libraries query, or a blocks query whose library is `undefined`. -/
def noSelectedScope : Request → Prop
  | .listLibraries _ => True
  | .listBlocks lib _ => lib = none

theorem noSelectedScope_append (rs : List Request) (r : Request)
    (h : ∀ x ∈ rs, noSelectedScope x) (hr : noSelectedScope r) :
    ∀ x ∈ rs ++ [r], noSelectedScope x := by
  intro x hx
  rcases List.mem_append.mp hx with h1 | h1
  · exact h x h1
  · rcases List.mem_singleton.mp h1 with rfl
    exact hr

theorem step_preserves_noSelect (w : World) (e : Ev)
    (he : isLibrarySelect e = false)
    (h1 : w.comp.state.selectedLibrary = none)
    (h2 : ∀ r ∈ w.requests, noSelectedScope r) :
    (step w e).comp.state.selectedLibrary = none ∧
      ∀ r ∈ (step w e).requests, noSelectedScope r := by
  cases e with
  | libraryInput text => exact ⟨h1, h2⟩
  | xblockInput text => exact ⟨h1, h2⟩
  | librarySelect l => simp [isLibrarySelect] at he
  | xblockToggle c id => exact ⟨h1, h2⟩
  | deleteClick id => exact ⟨h1, h2⟩
  | saveClick => exact ⟨h1, h2⟩
  | fireLibTimer =>
      show (fireLibraryDebounce w).comp.state.selectedLibrary = none ∧
        ∀ r ∈ (fireLibraryDebounce w).requests, noSelectedScope r
      unfold fireLibraryDebounce
      repeat' split
      all_goals first
        | exact ⟨h1, noSelectedScope_append w.requests _ h2 trivial⟩
        | exact ⟨h1, h2⟩
  | fireXblockTimer =>
      show (fireXblockDebounce w).comp.state.selectedLibrary = none ∧
        ∀ r ∈ (fireXblockDebounce w).requests, noSelectedScope r
      unfold fireXblockDebounce
      repeat' split
      all_goals first
        | exact ⟨h1, noSelectedScope_append w.requests _ h2 h1⟩
        | exact ⟨h1, h2⟩
  | respond i p =>
      show (applyResponse w i p).comp.state.selectedLibrary = none ∧
        ∀ r ∈ (applyResponse w i p).requests, noSelectedScope r
      unfold applyResponse
      repeat' split
      all_goals exact ⟨h1, h2⟩
  | advanceTo t =>
      show ((if w.now ≤ t then { w with now := t } else w)).comp.state.selectedLibrary = none ∧
        ∀ r ∈ ((if w.now ≤ t then { w with now := t } else w)).requests, noSelectedScope r
      split <;> exact ⟨h1, h2⟩
  | unmount => exact ⟨h1, h2⟩

theorem run_preserves_noSelect (w : World) (evs : List Ev)
    (he : ∀ e ∈ evs, isLibrarySelect e = false)
    (h1 : w.comp.state.selectedLibrary = none)
    (h2 : ∀ r ∈ w.requests, noSelectedScope r) :
    (run w evs).comp.state.selectedLibrary = none ∧
      ∀ r ∈ (run w evs).requests, noSelectedScope r := by
  induction evs generalizing w with
  | nil => exact ⟨h1, h2⟩
  | cons e rest ih =>
      have hstep := step_preserves_noSelect w e (he e (List.mem_cons_self e rest)) h1 h2
      exact ih (step w e) (fun e2 h => he e2 (List.mem_cons_of_mem e h)) hstep.1 hstep.2

/-- A burst of text-change events on the library search field, given as
(time, text) pairs: at each event time the environment first fires any
due debounce timer (as the real timeout would), then the keystroke
handler runs. -/
def burstEvents : List (Nat × String) → List Ev
  | [] => []
  | (t, s) :: rest =>
      Ev.advanceTo t :: Ev.fireLibTimer :: Ev.libraryInput s :: burstEvents rest

/-- Last entry of a nonempty burst written as head plus tail. -/
def lastEntry (p : Nat × String) : List (Nat × String) → Nat × String
  | [] => p
  | q :: qs => lastEntry q qs

/-- Deadline of the pending library debounce timer, if any. -/
def libDeadline (w : World) : Option Nat :=
  match w.comp.debouncedFetchLibraries with
  | none => none
  | some d => d.timer

theorem advanceTo_eq (w : World) (T : Nat) (h : w.now ≤ T) :
    step w (Ev.advanceTo T) = { w with now := T } := by
  show (if w.now ≤ T then { w with now := T } else w) = _
  rw [if_pos h]

theorem fireLib_noop_of_not_due (w : World)
    (h : ∀ dl, libDeadline w = some dl → ¬ dl ≤ w.now) :
    step w Ev.fireLibTimer = w := by
  show fireLibraryDebounce w = w
  unfold fireLibraryDebounce
  cases hd : w.comp.debouncedFetchLibraries with
  | none => rfl
  | some d =>
      dsimp only
      cases ht : d.timer with
      | none => rfl
      | some t =>
          dsimp only
          rw [if_neg (h t (by unfold libDeadline; rw [hd]; exact ht))]

theorem fireLib_dispatch (w : World) (t : Nat)
    (hd : w.comp.debouncedFetchLibraries = some { timer := some t })
    (hnow : t ≤ w.now) :
    step w Ev.fireLibTimer =
      issue { w with comp := { w.comp with
          debouncedFetchLibraries := some { timer := none } } }
        (Request.listLibraries w.comp.state.searchedLibrary) := by
  show fireLibraryDebounce w = _
  unfold fireLibraryDebounce
  rw [hd]
  dsimp only
  rw [if_pos hnow]

theorem burst_run (rest : List (Nat × String)) :
    ∀ (w : World) (t : Nat) (s : String), w.now ≤ t →
    List.Chain' (fun p q : Nat × String => p.1 ≤ q.1 ∧ q.1 < p.1 + debounceWait)
      ((t, s) :: rest) →
    (∀ dl, libDeadline w = some dl → t < dl) →
    ((run w (burstEvents ((t, s) :: rest))).comp.state.searchedLibrary
        = (lastEntry (t, s) rest).2) ∧
    ((run w (burstEvents ((t, s) :: rest))).now = (lastEntry (t, s) rest).1) ∧
    ((run w (burstEvents ((t, s) :: rest))).requests = w.requests) ∧
    ((run w (burstEvents ((t, s) :: rest))).comp.debouncedFetchLibraries
        = some { timer := some ((lastEntry (t, s) rest).1 + debounceWait) }) := by
  induction rest with
  | nil =>
      intro w t s hst _ hdl
      have h1 : step w (Ev.advanceTo t) = { w with now := t } := advanceTo_eq w t hst
      have h2 : step { w with now := t } Ev.fireLibTimer = { w with now := t } :=
        fireLib_noop_of_not_due _ (fun dl hd2 => Nat.not_le.mpr (hdl dl hd2))
      show ((step (step (step w (Ev.advanceTo t)) Ev.fireLibTimer)
            (Ev.libraryInput s)).comp.state.searchedLibrary = (lastEntry (t, s) []).2) ∧
        ((step (step (step w (Ev.advanceTo t)) Ev.fireLibTimer)
            (Ev.libraryInput s)).now = (lastEntry (t, s) []).1) ∧
        ((step (step (step w (Ev.advanceTo t)) Ev.fireLibTimer)
            (Ev.libraryInput s)).requests = w.requests) ∧
        ((step (step (step w (Ev.advanceTo t)) Ev.fireLibTimer)
            (Ev.libraryInput s)).comp.debouncedFetchLibraries
          = some { timer := some ((lastEntry (t, s) []).1 + debounceWait) })
      rw [h1, h2]
      exact ⟨rfl, rfl, rfl, rfl⟩
  | cons p rest2 ih =>
      intro w t s hst hch hdl
      obtain ⟨t2, s2⟩ := p
      have hrel : t ≤ t2 ∧ t2 < t + debounceWait := (List.chain'_cons.mp hch).1
      have hchtail : List.Chain'
          (fun p q : Nat × String => p.1 ≤ q.1 ∧ q.1 < p.1 + debounceWait)
          ((t2, s2) :: rest2) := (List.chain'_cons.mp hch).2
      have h1 : step w (Ev.advanceTo t) = { w with now := t } := advanceTo_eq w t hst
      have h2 : step { w with now := t } Ev.fireLibTimer = { w with now := t } :=
        fireLib_noop_of_not_due _ (fun dl hd2 => Nat.not_le.mpr (hdl dl hd2))
      have hrun : run w (burstEvents ((t, s) :: (t2, s2) :: rest2))
          = run (step (step (step w (Ev.advanceTo t)) Ev.fireLibTimer)
              (Ev.libraryInput s)) (burstEvents ((t2, s2) :: rest2)) := rfl
      rw [hrun, h1, h2]
      exact ih (step { w with now := t } (Ev.libraryInput s)) t2 s2 hrel.1 hchtail
        (fun dl hd2 => by
          have hd3 : some (t + debounceWait) = some dl := hd2
          cases Option.some.inj hd3
          exact hrel.2)

/-- C2: for every burst of text-change events on the library search
field, each arriving within the 300-unit window of its predecessor
(with any due timer given the chance to fire at each event time,
starting from a state whose pending deadline, if any, lies beyond the
first event), no query is dispatched during the burst; once the window
after the last event has elapsed, the trailing edge dispatches exactly
one query whose text is the live value of the input — the last event's
text — and a repeated trailing-edge attempt dispatches nothing more. -/
theorem C2_debounce_single_query_last_text (w : World) (t : Nat) (s : String)
    (rest : List (Nat × String))
    (hstart : w.now ≤ t)
    (hchain : List.Chain' (fun p q : Nat × String => p.1 ≤ q.1 ∧ q.1 < p.1 + debounceWait)
      ((t, s) :: rest))
    (hquiet : ∀ dl, libDeadline w = some dl → t < dl) :
    ((run w (burstEvents ((t, s) :: rest))).requests = w.requests) ∧
    ∀ T, (lastEntry (t, s) rest).1 + debounceWait ≤ T →
      ((run (run w (burstEvents ((t, s) :: rest)))
          [Ev.advanceTo T, Ev.fireLibTimer]).requests
        = w.requests ++ [Request.listLibraries (lastEntry (t, s) rest).2]) ∧
      ((run (run w (burstEvents ((t, s) :: rest)))
          [Ev.advanceTo T, Ev.fireLibTimer, Ev.fireLibTimer]).requests
        = w.requests ++ [Request.listLibraries (lastEntry (t, s) rest).2]) := by
  obtain ⟨hs, hn, hr, hdeb⟩ := burst_run rest w t s hstart hchain hquiet
  refine ⟨hr, ?_⟩
  intro T hT
  have hadv : step (run w (burstEvents ((t, s) :: rest))) (Ev.advanceTo T)
      = { run w (burstEvents ((t, s) :: rest)) with now := T } :=
    advanceTo_eq _ T (by rw [hn]; exact Nat.le_trans (Nat.le_add_right _ _) hT)
  have hfire : step { run w (burstEvents ((t, s) :: rest)) with now := T }
      Ev.fireLibTimer
      = issue { run w (burstEvents ((t, s) :: rest)) with
            now := T,
            comp := { (run w (burstEvents ((t, s) :: rest))).comp with
              debouncedFetchLibraries := some { timer := none } } }
        (Request.listLibraries
          (run w (burstEvents ((t, s) :: rest))).comp.state.searchedLibrary) :=
    fireLib_dispatch _ ((lastEntry (t, s) rest).1 + debounceWait) hdeb hT
  have hnofire : step (issue { run w (burstEvents ((t, s) :: rest)) with
            now := T,
            comp := { (run w (burstEvents ((t, s) :: rest))).comp with
              debouncedFetchLibraries := some { timer := none } } }
        (Request.listLibraries
          (run w (burstEvents ((t, s) :: rest))).comp.state.searchedLibrary))
      Ev.fireLibTimer
      = issue { run w (burstEvents ((t, s) :: rest)) with
            now := T,
            comp := { (run w (burstEvents ((t, s) :: rest))).comp with
              debouncedFetchLibraries := some { timer := none } } }
        (Request.listLibraries
          (run w (burstEvents ((t, s) :: rest))).comp.state.searchedLibrary) :=
    fireLib_noop_of_not_due _ (fun dl hd2 => Option.noConfusion hd2)
  constructor
  · show (step (step (run w (burstEvents ((t, s) :: rest))) (Ev.advanceTo T))
        Ev.fireLibTimer).requests = _
    rw [hadv, hfire]
    show (run w (burstEvents ((t, s) :: rest))).requests ++ _ = _
    rw [hr, hs]
  · show (step (step (step (run w (burstEvents ((t, s) :: rest))) (Ev.advanceTo T))
        Ev.fireLibTimer) Ev.fireLibTimer).requests = _
    rw [hadv, hfire, hnofire]
    show (run w (burstEvents ((t, s) :: rest))).requests ++ _ = _
    rw [hr, hs]

/-- Witness for `C2_debounce_single_query_last_text`: the burst "a" at
time 0 then "ab" at time 100, fired at time 400, dispatches the single
query `listLibraries("ab")`. -/
theorem C2_debounce_single_query_last_text_witness :
    ((run (initWorld [] "") (burstEvents [(0, "a"), (100, "ab")])).requests
      = [Request.listLibraries ""]) ∧
    ((run (run (initWorld [] "") (burstEvents [(0, "a"), (100, "ab")]))
        [Ev.advanceTo 400, Ev.fireLibTimer]).requests
      = [Request.listLibraries "", Request.listLibraries "ab"]) ∧
    ((run (run (initWorld [] "") (burstEvents [(0, "a"), (100, "ab")]))
        [Ev.advanceTo 400, Ev.fireLibTimer, Ev.fireLibTimer]).requests
      = [Request.listLibraries "", Request.listLibraries "ab"]) := by
  have h := C2_debounce_single_query_last_text (initWorld [] "") 0 "a" [(100, "ab")]
    (Nat.le_refl 0)
    (List.chain'_cons.mpr ⟨⟨by decide, by decide⟩, List.chain'_singleton _⟩)
    (fun dl hd2 => Option.noConfusion hd2)
  exact ⟨h.1, (h.2 400 (by decide)).1, (h.2 400 (by decide)).2⟩

/-- C3 counterexample: library L1 is selected, then L2; L2's blocks
response (request 2) arrives first, then L1's late response (request 1).
The final `xblocks` is L1's payload, not the payload of the most
recently issued request. -/
theorem C3_counterexample_late_response_wins :
    ((run (initWorld [] "") [Ev.librarySelect "L1", Ev.librarySelect "L2",
        Ev.respond 2 (Payload.blocks [Block.mk "b2" "B2"]),
        Ev.respond 1 (Payload.blocks [Block.mk "b1" "B1"])]).comp.state.xblocks
      = [Block.mk "b1" "B1"]) ∧
    [Block.mk "b1" "B1"] ≠ [Block.mk "b2" "B2"] :=
  ⟨rfl, by decide⟩

theorem applyResponse_blocks (w : World) (i : Nat)
    (lib : Option String) (txt : String) (b : List Block)
    (h : w.requests[i]? = some (Request.listBlocks lib txt)) :
    (applyResponse w i (Payload.blocks b)).comp.state.xblocks = b := by
  unfold applyResponse
  rw [h]

/-- C3 (amended): the handler attached to each `fetchXblocks` promise
overwrites `xblocks` with its own payload unconditionally, so the final
`blocks` list is the payload of whichever blocks response completed
last — a later-arriving response to an earlier request does overwrite a
newer request's result. -/
theorem C3_last_completed_response_wins (w : World) (i : Nat)
    (lib : Option String) (txt : String) (b : List Block)
    (h : w.requests[i]? = some (Request.listBlocks lib txt)) :
    (step w (Ev.respond i (Payload.blocks b))).comp.state.xblocks = b :=
  applyResponse_blocks w i lib txt b h

/-- Witness for `C3_last_completed_response_wins` at a concrete world. -/
theorem C3_last_completed_response_wins_witness :
    (step (run (initWorld [] "") [Ev.librarySelect "L1"])
        (Ev.respond 1 (Payload.blocks [Block.mk "b1" "B1"]))).comp.state.xblocks
      = [Block.mk "b1" "B1"] :=
  C3_last_completed_response_wins _ 1 (some "L1") "" _ rfl

/-- C4 counterexample: a block search is scheduled while L1 is selected;
before the timer fires the user selects L2. When the debounced query
fires it targets L2 — the library selected at fire time — not L1, the
library selected at schedule time as the claim states. -/
theorem C4_counterexample_schedule_time_library :
    (((run (initWorld [] "") [Ev.librarySelect "L1", Ev.xblockInput "q",
        Ev.librarySelect "L2", Ev.advanceTo 300, Ev.fireXblockTimer]).requests).getLast?
      = some (Request.listBlocks (some "L2") "q")) ∧
    (some "L2" : Option String) ≠ some "L1" :=
  ⟨rfl, by decide⟩

/-- C4 (amended): when the block-search debounce timer fires, the issued
`listBlocks` request uses `this.state.selectedLibrary` as read at fire
time — not the library selected when the query was scheduled — together
with the block-search field's current (last-typed) text. -/
theorem C4_debounced_fetch_reads_library_at_fire_time (w : World) (t : Nat)
    (hd : w.comp.debouncedFetchXblocks = some { timer := some t })
    (hnow : t ≤ w.now) :
    (step w Ev.fireXblockTimer).requests =
      w.requests ++
        [Request.listBlocks w.comp.state.selectedLibrary
          w.comp.state.searchedXblock] := by
  show (fireXblockDebounce w).requests = _
  unfold fireXblockDebounce
  rw [hd]
  dsimp only
  rw [if_pos hnow]
  rfl

/-- Witness for `C4_debounced_fetch_reads_library_at_fire_time` on the
run that schedules under L1 and fires under L2. -/
theorem C4_debounced_fetch_reads_library_at_fire_time_witness :
    (step (run (initWorld [] "") [Ev.librarySelect "L1", Ev.xblockInput "q",
        Ev.librarySelect "L2", Ev.advanceTo 300]) Ev.fireXblockTimer).requests =
      (run (initWorld [] "") [Ev.librarySelect "L1", Ev.xblockInput "q",
        Ev.librarySelect "L2", Ev.advanceTo 300]).requests ++
        [Request.listBlocks
          (run (initWorld [] "") [Ev.librarySelect "L1", Ev.xblockInput "q",
            Ev.librarySelect "L2", Ev.advanceTo 300]).comp.state.selectedLibrary
          (run (initWorld [] "") [Ev.librarySelect "L1", Ev.xblockInput "q",
            Ev.librarySelect "L2", Ev.advanceTo 300]).comp.state.searchedXblock] :=
  C4_debounced_fetch_reads_library_at_fire_time _ 300 rfl (by decide)

/-- C5 counterexample: with no library-selected event at all, typing in
the block search and letting the debounce fire issues a blocks query —
so "no block query is issued before a library is selected" fails. -/
theorem C5_counterexample_block_query_before_selection :
    (∀ e ∈ [Ev.xblockInput "a", Ev.advanceTo 300, Ev.fireXblockTimer],
        isLibrarySelect e = false) ∧
    Request.listBlocks none "a" ∈
      (run (initWorld [] "")
        [Ev.xblockInput "a", Ev.advanceTo 300, Ev.fireXblockTimer]).requests :=
  ⟨by decide, by decide⟩

/-- C5 (amended): in every state reachable without a library-selected
event, `selectedLibrary` is still `undefined`; block queries can
nevertheless be issued by the block-search debounce before any
selection, and every such premature query carries the `undefined`
library (every issued request is a libraries query or a blocks query
scoped to no library). -/
theorem C5_selected_library_none_before_selection (sel : List String)
    (url : String) (evs : List Ev)
    (he : ∀ e ∈ evs, isLibrarySelect e = false) :
    (run (initWorld sel url) evs).comp.state.selectedLibrary = none ∧
      ∀ r ∈ (run (initWorld sel url) evs).requests, noSelectedScope r := by
  refine run_preserves_noSelect _ evs he rfl ?_
  intro r hr
  rcases List.mem_singleton.mp hr with rfl
  trivial

/-- Witness for `C5_selected_library_none_before_selection` on a
concrete selection-free run. -/
theorem C5_selected_library_none_before_selection_witness :
    (run (initWorld [] "") [Ev.xblockInput "a"]).comp.state.selectedLibrary = none ∧
      ∀ r ∈ (run (initWorld [] "") [Ev.xblockInput "a"]).requests, noSelectedScope r :=
  C5_selected_library_none_before_selection [] "" [Ev.xblockInput "a"] (by decide)

/-- C6: selecting library L sets `selectedLibrary` to L, synchronously
issues exactly one `listBlocks(L, "")` request with the empty text
filter (no debounce closure is touched), leaves the selection set
unchanged, and the response to that request replaces `xblocks`
wholesale with its payload. -/
theorem C6_library_selected_transition (w : World) (L : String) :
    (step w (Ev.librarySelect L)).comp.state.selectedLibrary = some L ∧
    (step w (Ev.librarySelect L)).requests
      = w.requests ++ [Request.listBlocks (some L) ""] ∧
    (step w (Ev.librarySelect L)).comp.state.selectedXblocks
      = w.comp.state.selectedXblocks ∧
    (step w (Ev.librarySelect L)).comp.debouncedFetchLibraries
      = w.comp.debouncedFetchLibraries ∧
    (step w (Ev.librarySelect L)).comp.debouncedFetchXblocks
      = w.comp.debouncedFetchXblocks ∧
    ∀ b, (step (step w (Ev.librarySelect L))
        (Ev.respond w.requests.length (Payload.blocks b))).comp.state.xblocks = b := by
  refine ⟨rfl, rfl, rfl, rfl, rfl, ?_⟩
  intro b
  refine applyResponse_blocks (step w (Ev.librarySelect L)) w.requests.length (some L) "" b ?_
  show (w.requests ++ [Request.listBlocks (some L) ""])[w.requests.length]?
    = some (Request.listBlocks (some L) "")
  rw [List.getElem?_concat_length]

/-- C7: a save click hands the host the configured destination URL and
the snapshot of the current selection set, changes nothing in the
component, and in particular a block id just toggled to checked is
contained in the dispatched `source_block_ids`. -/
theorem C7_save_dispatch (w : World) :
    (step w Ev.saveClick).saves
      = w.saves ++ [(w.saveUrl, w.comp.state.selectedXblocks)] ∧
    (step w Ev.saveClick).comp = w.comp ∧
    (step w Ev.saveClick).requests = w.requests ∧
    ∀ id, ∃ ids,
      (step (step w (Ev.xblockToggle true id)) Ev.saveClick).saves
        = (step w (Ev.xblockToggle true id)).saves ++ [(w.saveUrl, ids)] ∧ id ∈ ids := by
  refine ⟨rfl, rfl, rfl, ?_⟩
  intro id
  refine ⟨setAdd w.comp.state.selectedXblocks id, rfl, ?_⟩
  rw [mem_setAdd]
  exact Or.inr rfl

/-- C9 (code bug exhibit): a block-search debounce is pending when the
component is unmounted; nothing cancels the timer (the component defines
no teardown hook), so after the window elapses the callback still runs
and issues a catalog query against the disposed instance. -/
theorem C9_pending_timer_fires_after_unmount :
    ((run (initWorld [] "") [Ev.xblockInput "a", Ev.unmount]).mounted = false) ∧
    ((run (initWorld [] "") [Ev.xblockInput "a", Ev.unmount]).requests
      = [Request.listLibraries ""]) ∧
    ((run (run (initWorld [] "") [Ev.xblockInput "a", Ev.unmount])
        [Ev.advanceTo 300, Ev.fireXblockTimer]).requests
      = [Request.listLibraries "", Request.listBlocks none "a"]) :=
  ⟨rfl, rfl, rfl⟩

/-- C10: the constructor alone — before any user input event — has
issued exactly one unfiltered libraries query, and the delivery of its
response replaces `libraries` wholesale with the payload. -/
theorem C10_constructor_loads_catalog (sel : List String) (url : String) :
    (initWorld sel url).requests = [Request.listLibraries ""] ∧
    ∀ libs, (step (initWorld sel url)
        (Ev.respond 0 (Payload.libs libs))).comp.state.libraries = libs := by
  refine ⟨rfl, ?_⟩
  intro libs
  rfl

/-!
Embedding of the `fail` handler of `LibrarySourceBlockAuthorView`
(lines 220 to 232): extraction of a human-readable error message from
the failed save's response body. `JSON.parse` is a host builtin, so it
is modelled by passing its outcome (`none` when it throws) alongside the
raw body; property access on `null`/`undefined` throwing, JS truthiness,
and jQuery's `$.map` dropping `null`/`undefined` results are modelled
explicitly.
-/

/-- A parsed JSON value. -/
inductive Json where
  | null
  | bool (b : Bool)
  | num (n : Int)
  | str (s : String)
  | arr (elems : List Json)
  | obj (fields : List (String × Json))
deriving Repr

/-- First binding of a key in a JSON object's field list. -/
def lookupField : List (String × Json) → String → Option Json
  | [], _ => none
  | (k, v) :: rest, key => if k = key then some v else lookupField rest key

/-- Property access `j.key` on a JSON value that is not `null`:
`none` models the JS `undefined` result on non-objects and missing keys. -/
def Json.getField : Json → String → Option Json
  | .obj fields, key => lookupField fields key
  | _, _ => none

/-- JS truthiness of a JSON value. -/
def jsTruthy : Json → Bool
  | .null => false
  | .bool b => b
  | .num n => n != 0
  | .str s => s != ""
  | .arr _ => true
  | .obj _ => true

/-- Whether `typeof v === 'object'` holds: true for objects, arrays and
`null`. -/
def typeofIsObject : Json → Bool
  | .obj _ => true
  | .arr _ => true
  | .null => true
  | _ => false

/-- JS `String()` conversion for the scalar values that can reach the
error-message join; the nested-array case is approximated one level deep
(never reached by the handler on the payload shapes the spec covers). -/
def jsToStringScalar : Json → String
  | .null => "null"
  | .bool b => if b then "true" else "false"
  | .num n => toString n
  | .str s => s
  | .arr _ => ""
  | .obj _ => "[object Object]"

/-- JS `String()` conversion. -/
def jsToString : Json → String
  | .arr l => String.intercalate "," (l.map jsToStringScalar)
  | j => jsToStringScalar j

/-- Access `msg.text` of one entry of the `messages` array. -/
def msgText (m : Json) : Option Json := m.getField "text"

/-- jQuery `$.map(messages, function(msg) { return msg.text; })` followed
by the stringification inside `join`: entries whose `text` is `undefined`
or `null` are dropped by `$.map`, the rest are converted to strings. -/
def collectTexts (msgs : List Json) : List String :=
  msgs.filterMap fun m =>
    match msgText m with
    | some Json.null => none
    | some j => some (jsToString j)
    | none => none

/-- jQuery `$.map` applied to the `messages` value: arrays map over their
elements, plain objects over their field values; on any other value
`$.map` throws (its array-like probe applies `in` to a primitive),
modelled as `none`. -/
def jsMapTexts : Json → Option (List String)
  | .arr l => some (collectTexts l)
  | .obj fields => some (collectTexts (fields.map Prod.snd))
  | _ => none

/-- Body of the `try` block of the fail handler, on the outcome of
`JSON.parse(jqXHR.responseText)` (`none` when parsing threw):
`Except.error` is an exception reaching the `catch`, `Except.ok` the
final value of `message` (with `none` for JS `undefined`).
Accessing `.error` on a parsed `null` and `.messages` on an `error`
field that is `null` both throw. -/
def tryBody : Option Json → Except Unit (Option Json)
  | none => Except.error ()
  | some Json.null => Except.error ()
  | some j =>
    match Json.getField j "error" with
    | none => Except.ok none
    | some e =>
      if typeofIsObject e then
        match e with
        | Json.null => Except.error ()
        | e2 =>
          match Json.getField e2 "messages" with
          | none => Except.ok (some e2)
          | some msgs =>
            if jsTruthy msgs then
              match jsMapTexts msgs with
              | none => Except.error ()
              | some texts =>
                Except.ok (some (Json.str (String.intercalate ", " texts)))
            else Except.ok (some e2)
      else Except.ok (some e)

/-- Default message of the fail handler, used when no response body is
present. -/
def staticFallback : String :=
  "This may be happening because of an error with our server or your internet connection. Try refreshing the page or making sure you are online."

/-- The message surfaced by the fail handler: the static fallback when
the body is falsy (absent or empty); otherwise the `try` block's value,
with any exception caught and replaced by the first 300 characters of
the raw body. -/
def failMessage (responseText : String) (parsed : Option Json) : Option Json :=
  if responseText = "" then some (Json.str staticFallback)
  else
    match tryBody parsed with
    | Except.ok m => m
    | Except.error _ => some (Json.str (String.take responseText 300))

theorem collectTexts_of_texts (msgs : List Json) (ts : List String)
    (h : List.Forall₂ (fun m t => msgText m = some (Json.str t)) msgs ts) :
    collectTexts msgs = ts := by
  induction h with
  | nil => rfl
  | @cons m t ms ts2 h1 _ ih =>
      have htail : collectTexts ms = ts2 := ih
      unfold collectTexts at htail ⊢
      simp only [List.filterMap_cons, h1]
      rw [htail]
      rfl

theorem tryBody_error_str (fields : List (String × Json)) (s : String)
    (he : Json.getField (Json.obj fields) "error" = some (Json.str s)) :
    tryBody (some (Json.obj fields)) = Except.ok (some (Json.str s)) := by
  unfold tryBody
  dsimp only
  rw [he]
  rfl

theorem tryBody_error_messages (fields efields : List (String × Json))
    (msgs : List Json) (ts : List String)
    (he : Json.getField (Json.obj fields) "error" = some (Json.obj efields))
    (hm : lookupField efields "messages" = some (Json.arr msgs))
    (ht : List.Forall₂ (fun m t => msgText m = some (Json.str t)) msgs ts) :
    tryBody (some (Json.obj fields))
      = Except.ok (some (Json.str (String.intercalate ", " ts))) := by
  unfold tryBody
  dsimp only
  rw [he]
  dsimp only
  rw [show Json.getField (Json.obj efields) "messages"
        = lookupField efields "messages" from rfl, hm]
  dsimp only [jsMapTexts]
  rw [collectTexts_of_texts msgs ts ht]
  rfl

/-- C8: the message surfaced by the save-failure handler is the string
value of the parsed body's `error` field when it is a string; the
comma-joined `text` fields when `error` is an object with a `messages`
array; the first 300 characters of the raw body when JSON parsing
throws; and the static fallback string when no body is present. -/
theorem C8_fail_handler_message :
    (∀ body j s, body ≠ "" →
      Json.getField j "error" = some (Json.str s) →
      failMessage body (some j) = some (Json.str s)) ∧
    (∀ body j efields msgs ts, body ≠ "" →
      Json.getField j "error" = some (Json.obj efields) →
      lookupField efields "messages" = some (Json.arr msgs) →
      List.Forall₂ (fun m t => msgText m = some (Json.str t)) msgs ts →
      failMessage body (some j)
        = some (Json.str (String.intercalate ", " ts))) ∧
    (∀ body, body ≠ "" →
      failMessage body none = some (Json.str (String.take body 300))) ∧
    (∀ parsed, failMessage "" parsed = some (Json.str staticFallback)) := by
  refine ⟨?_, ?_, ?_, ?_⟩
  · intro body j s hb he
    cases j with
    | obj fields =>
        unfold failMessage
        rw [if_neg hb, tryBody_error_str fields s he]
    | null => exact absurd he (by simp [Json.getField])
    | bool b => exact absurd he (by simp [Json.getField])
    | num n => exact absurd he (by simp [Json.getField])
    | str s2 => exact absurd he (by simp [Json.getField])
    | arr l => exact absurd he (by simp [Json.getField])
  · intro body j efields msgs ts hb he hm ht
    cases j with
    | obj fields =>
        unfold failMessage
        rw [if_neg hb, tryBody_error_messages fields efields msgs ts he hm ht]
    | null => exact absurd he (by simp [Json.getField])
    | bool b => exact absurd he (by simp [Json.getField])
    | num n => exact absurd he (by simp [Json.getField])
    | str s2 => exact absurd he (by simp [Json.getField])
    | arr l => exact absurd he (by simp [Json.getField])
  · intro body hb
    unfold failMessage
    rw [if_neg hb]
    rfl
  · intro parsed
    rfl

/-- Witness for `C8_fail_handler_message`: all four branches at concrete
inputs, including the body whose parsed `error` field is the string
"Unknown user". -/
theorem C8_fail_handler_message_witness :
    failMessage "\x7b\"error\":\"Unknown user\"\x7d"
        (some (Json.obj [("error", Json.str "Unknown user")]))
      = some (Json.str "Unknown user") ∧
    failMessage "body2"
        (some (Json.obj [("error", Json.obj [("messages",
          Json.arr [Json.obj [("text", Json.str "m1")],
            Json.obj [("text", Json.str "m2")]])])]))
      = some (Json.str (String.intercalate ", " ["m1", "m2"])) ∧
    failMessage "not json" none
      = some (Json.str (String.take "not json" 300)) ∧
    failMessage "" none = some (Json.str staticFallback) :=
  ⟨C8_fail_handler_message.1 _ _ "Unknown user" (by decide) rfl,
   C8_fail_handler_message.2.1 "body2" _
     [("messages", Json.arr [Json.obj [("text", Json.str "m1")],
        Json.obj [("text", Json.str "m2")]])]
     [Json.obj [("text", Json.str "m1")], Json.obj [("text", Json.str "m2")]]
     ["m1", "m2"] (by decide) rfl rfl
     (List.Forall₂.cons rfl (List.Forall₂.cons rfl List.Forall₂.nil)),
   C8_fail_handler_message.2.2.1 "not json" (by decide),
   C8_fail_handler_message.2.2.2 none⟩

end LibraryPicker
